import Mathlib

/-!
# Net F/T relay clients: byte codec and streaming loop

A shallow embedding of the three programs of the repository

* `src/c/client_data_tx.c`   (relay client, C),
* `src/cpp/clientDataTx.cpp` (relay client, C++),
* `read_data_single.c`       (single-sample probe),

followed by theorems about the request/response byte layout and about the
receive/forward loop.

Machine integers are natural numbers / integers with explicit reduction modulo
`2^16` and `2^32`; a byte is a `Fin 256`.  The socket library and the console
are external: every answer they give to the program is read from a `World`
script, and every call the program makes is recorded in a trace of `Event`s.
-/

namespace NetFT

/-! ## Machine integers and memory -/

/-- One `unsigned char` of memory. -/
abbrev Byte := Fin 256

/-- Conversion of an integer value to `unsigned char` (reduction modulo 256). -/
def toByte (n : Nat) : Byte := ⟨n % 256, Nat.mod_lt n (by decide)⟩

/-- Byte order of the machine the program runs on.  The programs are WinSock
programs, so in practice the host is `little`; nothing below depends on that. -/
inductive Endian where
  | little
  | big
deriving DecidableEq, Repr

/-- Conversion of a value to `unsigned short` (`uint16`). -/
def toUInt16 (n : Nat) : Nat := n % 2 ^ 16

/-- Conversion of an `int` (or of any integer value) to `unsigned int`
(`uint32`, `u_long`): reduction modulo `2^32`. -/
def toUInt32 (i : Int) : Nat := (i % 2 ^ 32).toNat

/-- Conversion of an `unsigned int` to `int` (`int32`): the value with the same
32-bit two's-complement representation. -/
def toInt32 (n : Nat) : Int :=
  if n % 2 ^ 32 < 2 ^ 31 then ((n % 2 ^ 32 : Nat) : Int) else ((n % 2 ^ 32 : Nat) : Int) - 2 ^ 32

/-- Exchange of the two bytes of a 16-bit value. -/
def bswap16 (x : Nat) : Nat := (x % 0x100) * 0x100 + (x / 0x100) % 0x100

/-- Reversal of the four bytes of a 32-bit value. -/
def bswap32 (x : Nat) : Nat :=
  (x % 0x100) * 0x1000000 + (x / 0x100 % 0x100) * 0x10000 + (x / 0x10000 % 0x100) * 0x100
    + x / 0x1000000 % 0x100

/-- The library call `htons`: host to network (big-endian) order, 16 bits.  The
argument is converted to `u_short` first. -/
def htons (e : Endian) (x : Nat) : Nat :=
  match e with
  | .little => bswap16 (toUInt16 x)
  | .big => toUInt16 x

/-- The library call `htonl`: host to network (big-endian) order, 32 bits. -/
def htonl (e : Endian) (x : Nat) : Nat :=
  match e with
  | .little => bswap32 (x % 2 ^ 32)
  | .big => x % 2 ^ 32

/-- The library call `ntohl`: network (big-endian) to host order, 32 bits. -/
def ntohl (e : Endian) (x : Nat) : Nat :=
  match e with
  | .little => bswap32 (x % 2 ^ 32)
  | .big => x % 2 ^ 32

/-- The byte `buf[i]` of a buffer. -/
def byteAt (buf : List Byte) (i : Nat) : Byte := buf.getD i 0

/-- The read `*(uint32*)&buf[off]`: four bytes of memory as a host-order value. -/
def load32 (e : Endian) (buf : List Byte) (off : Nat) : Nat :=
  match e with
  | .little =>
      (byteAt buf off).val + (byteAt buf (off + 1)).val * 0x100
        + (byteAt buf (off + 2)).val * 0x10000 + (byteAt buf (off + 3)).val * 0x1000000
  | .big =>
      (byteAt buf off).val * 0x1000000 + (byteAt buf (off + 1)).val * 0x10000
        + (byteAt buf (off + 2)).val * 0x100 + (byteAt buf (off + 3)).val

/-- The write `*(uint16*)&buf[off] = v`. -/
def store16 (e : Endian) (buf : List Byte) (off : Nat) (v : Nat) : List Byte :=
  match e with
  | .little => (buf.set off (toByte v)).set (off + 1) (toByte (v / 256))
  | .big => (buf.set off (toByte (v / 256))).set (off + 1) (toByte v)

/-- The write `*(uint32*)&buf[off] = v` (also `*(int32*)&buf[off] = v`, the
stored bit pattern being the same). -/
def store32 (e : Endian) (buf : List Byte) (off : Nat) (v : Nat) : List Byte :=
  match e with
  | .little =>
      (((buf.set off (toByte v)).set (off + 1) (toByte (v / 0x100))).set (off + 2)
        (toByte (v / 0x10000))).set (off + 3) (toByte (v / 0x1000000))
  | .big =>
      (((buf.set off (toByte (v / 0x1000000))).set (off + 1) (toByte (v / 0x10000))).set (off + 2)
        (toByte (v / 0x100))).set (off + 3) (toByte v)

/-! ## The codec (identical text in the three programs) -/

/-- The C type `struct response_struct` (`response` / `RESPONSE`). -/
structure response_struct where
  rdt_sequence : Nat
  ft_sequence : Nat
  status : Nat
  ft_data : List Int
deriving DecidableEq, Repr

/-- The values a `response_struct` can hold: three `uint32` and six `int32`. -/
def response_struct.WellFormed (r : response_struct) : Prop :=
  r.rdt_sequence < 2 ^ 32 ∧ r.ft_sequence < 2 ^ 32 ∧ r.status < 2 ^ 32 ∧
    r.ft_data.length = 6 ∧ ∀ x ∈ r.ft_data, -(2 ^ 31 : Int) ≤ x ∧ x < 2 ^ 31

/-- The request construction (`client_data_tx.c` 111-113, `clientDataTx.cpp`
118-120, `read_data_single.c` 80-82), on a `byte request[8]` with contents
`request0`; `command` and `num_samples` stand for the macros `COMMAND` and
`NUM_SAMPLES`. -/
def buildRequestInto (e : Endian) (request0 : List Byte) (command num_samples : Nat) :
    List Byte :=
  let request := store16 e request0 0 (htons e 0x1234)
  let request := store16 e request 2 (htons e command)
  store32 e request 4 (htonl e num_samples)

/-- The request construction on a fresh `byte request[8]`. -/
def buildRequest (e : Endian) (command num_samples : Nat) : List Byte :=
  buildRequestInto e (List.replicate 8 0) command num_samples

/-- The macro `COMMAND` (all three programs). -/
def COMMAND : Nat := 2

/-- The macro `NUM_SAMPLES` of the two relay programs. -/
def NUM_SAMPLES : Nat := 0

/-- The macro `NUM_SAMPLES` of `read_data_single.c`. -/
def NUM_SAMPLES_single : Nat := 1

/-- The response decode (`client_data_tx.c` 129-134, `clientDataTx.cpp`
147-152, `read_data_single.c` 97-102) on the receive buffer `response`. -/
def decodeResponse (e : Endian) (response : List Byte) : response_struct :=
  { rdt_sequence := ntohl e (load32 e response 0)
    ft_sequence := ntohl e (load32 e response 4)
    status := ntohl e (load32 e response 8)
    ft_data := (List.range 6).map fun i =>
      toInt32 (ntohl e (toUInt32 (toInt32 (load32 e response (12 + i * 4))))) }

/-- The relay frame construction (`client_data_tx.c` 151-162,
`clientDataTx.cpp` 169-180) on a `char buffer[36]` with contents `buffer0`. -/
def encodeRelayFrameInto (e : Endian) (buffer0 : List Byte) (resp : response_struct) :
    List Byte :=
  let offset := 0
  let buffer := store32 e buffer0 offset (htonl e resp.rdt_sequence)
  let offset := offset + 4
  let buffer := store32 e buffer offset (htonl e resp.ft_sequence)
  let offset := offset + 4
  let buffer := store32 e buffer offset (htonl e resp.status)
  let offset := offset + 4
  ((List.range 6).foldl
    (fun (st : List Byte × Nat) i =>
      (store32 e st.1 st.2 (toUInt32 (toInt32 (htonl e (toUInt32 (resp.ft_data.getD i 0))))),
        st.2 + 4))
    (buffer, offset)).1

/-- The relay frame construction on a fresh `char buffer[36]`. -/
def encodeRelayFrame (e : Endian) (resp : response_struct) : List Byte :=
  encodeRelayFrameInto e (List.replicate 36 0) resp

/-! ## The outside world and the three programs -/

/-- The answers of the socket library and of the console, as far as the
programs ask for them.  A `true` flag means that the call succeeded.  The
address strings are constants of the programs, so the two `inet_pton` calls made
on the device address get the same answer. -/
structure World where
  /-- Byte order of the host. -/
  host : Endian
  /-- `WSAStartup(...) == 0`. -/
  WSAStartup : Bool
  /-- `socket(AF_INET, SOCK_STREAM, 0) != INVALID_SOCKET` (downstream). -/
  socketMain : Bool
  /-- `socket(AF_INET, SOCK_DGRAM, IPPROTO_UDP) != INVALID_SOCKET` (device). -/
  socketFT : Bool
  /-- `inet_pton(AF_INET, SERVER_IP, ...) > 0`. -/
  inet_ptonMain : Bool
  /-- `connect(h_socket, ...) != SOCKET_ERROR`. -/
  connectMain : Bool
  /-- `inet_pton(AF_INET, SERVER_FT_IP, ...) > 0`. -/
  inet_ptonFT : Bool
  /-- `connect(h_socket_FT, ...) != SOCKET_ERROR`. -/
  connectFT : Bool
  /-- What the uninitialised array `byte response[36]` holds when `main` starts. -/
  response0 : List Byte
  /-- The console at each successive `_kbhit()`: `none` when no key is waiting,
  `some ch` when a key is waiting that `_getch()` would return as `ch`.  After
  the end of the list no key is ever waiting. -/
  keys : List (Option Int)
  /-- The successive `recv` calls on the device socket: `none` for the return
  value `-1`, `some data` when `data` arrived and was copied into the buffer.
  After the end of the list the device is silent and `recv` does not return. -/
  recvs : List (Option (List Byte))
  /-- The return values of the successive `send` calls on the downstream
  socket.  After the end of the list every `send` returns 36. -/
  sends : List Int

/-- The calls a program makes on the socket library and the console, and the
decoded samples it prints (the other console output is left out). -/
inductive Event where
  /-- The call `send(h_socket_FT, request, 8, 0)` with the bytes of `request`. -/
  | sendFT (request : List Byte)
  /-- The call `_kbhit()` and whether it reported a waiting key. -/
  | kbhit (pending : Bool)
  /-- The call `_getch()` and the key code it returned. -/
  | getch (ch : Int)
  /-- The call `recv(h_socket_FT, response, 36, 0)` and its return value. -/
  | recv (bytes_received : Int)
  /-- The call `recv(h_socket_FT, response, 36, 0)` that never returns. -/
  | recvBlocks
  /-- The `printf` calls that print the decoded sample `resp`. -/
  | print (resp : response_struct)
  /-- The call `send(h_socket, buffer, 36, 0)` with the bytes of `buffer`, and
  its return value. -/
  | sendMain (buffer : List Byte) (ret : Int)
  /-- The call `closesocket(h_socket)` (downstream). -/
  | closeMain
  /-- The call `closesocket(h_socket_FT)` (device). -/
  | closeFT
  /-- The call `WSACleanup()`. -/
  | WSACleanup
deriving DecidableEq, Repr

/-- A run of `main`: the calls made, and the value returned (`none` when `main`
never returns). -/
structure Run where
  trace : List Event
  exit : Option Int
deriving DecidableEq, Repr

/-- The key waiting at the next `_kbhit()`, if any. -/
def pendingKey (keys : List (Option Int)) : Option Int :=
  match keys with
  | [] => none
  | k :: _ => k

/-- The return value of the next downstream `send`. -/
def nextSend (sends : List Int) : Int :=
  match sends with
  | [] => 36
  | r :: _ => r

/-- The receive buffer after `recv(h_socket_FT, response, 36, 0)` copied `data`
into it: at most 36 bytes are written, from the start of the buffer; the bytes
behind them keep their value. -/
def recvInto (response : List Byte) (data : List Byte) : List Byte :=
  data.take 36 ++ response.drop (data.take 36).length

/-- The value `recv` returns when `data` arrived. -/
def bytesReceived (data : List Byte) : Int := ((data.take 36).length : Nat)

/-- The loop of `client_data_tx.c` (lines 121-164), from the test of its guard
on.  The result is the list of calls made and whether the loop is left.  The
array `buffer` is declared afresh in every iteration and all its 36 bytes are
overwritten (`encodeRelayFrameInto_eq`), so what it held before is left out. -/
def client_data_tx_loop (e : Endian) (recvs : List (Option (List Byte)))
    (keys : List (Option Int)) (sends : List Int) (response : List Byte) : List Event × Bool :=
  match pendingKey keys with
  | some _ => ([.kbhit true], true)
  | none =>
    match recvs with
    | [] => ([.kbhit false, .recvBlocks], false)
    | none :: _ => ([.kbhit false, .recv (-1)], true)
    | some data :: recvs =>
      let bytes_received := bytesReceived data
      let response := recvInto response data
      let resp := decodeResponse e response
      let buffer := encodeRelayFrame e resp
      let rest := client_data_tx_loop e recvs keys.tail sends.tail response
      (.kbhit false :: .recv bytes_received :: .print resp :: .sendMain buffer (nextSend sends)
        :: rest.1, rest.2)

/-- The program `client_data_tx.c` (`main`, lines 42-171): the set-up calls in
the order of the source, each with its own failure exit, then the start request,
the loop, and the two `closesocket` calls. -/
def client_data_tx_main (w : World) : Run :=
  if !w.WSAStartup then ⟨[], some 1⟩
  else if !w.socketMain then ⟨[.closeMain, .WSACleanup], some 1⟩
  else if !w.socketFT then ⟨[.WSACleanup], some 1⟩
  else if !w.inet_ptonMain then ⟨[.closeMain, .WSACleanup], some 1⟩
  else if !w.connectMain then ⟨[.closeMain, .WSACleanup], some 1⟩
  else if !w.inet_ptonFT then ⟨[.closeFT, .WSACleanup], some 1⟩
  else if !w.connectFT then ⟨[.closeFT, .WSACleanup], some 1⟩
  else
    let request := buildRequest w.host COMMAND NUM_SAMPLES
    let loop := client_data_tx_loop w.host w.recvs w.keys w.sends w.response0
    if loop.2 then ⟨.sendFT request :: loop.1 ++ [.closeMain, .closeFT, .WSACleanup], some 0⟩
    else ⟨.sendFT request :: loop.1, none⟩

/-- The calls of the key test of `clientDataTx.cpp` (lines 130-131). -/
def pollEvents (key : Option Int) : List Event :=
  match key with
  | none => [.kbhit false]
  | some ch => [.kbhit true, .getch ch]

/-- The loop of `clientDataTx.cpp` (lines 129-184), from the top of its body
on.  The result is the list of calls made and whether the loop is left. -/
def clientDataTx_loop (e : Endian) (recvs : List (Option (List Byte)))
    (keys : List (Option Int)) (sends : List Int) (response : List Byte) : List Event × Bool :=
  if pendingKey keys = some 27 then
    (pollEvents (pendingKey keys) ++ [.closeMain, .closeFT], true)
  else
    match recvs with
    | [] => (pollEvents (pendingKey keys) ++ [.recvBlocks], false)
    | none :: _ => (pollEvents (pendingKey keys) ++ [.recv (-1)], true)
    | some data :: recvs =>
      let bytes_received := bytesReceived data
      let response := recvInto response data
      let resp := decodeResponse e response
      let buffer := encodeRelayFrame e resp
      let rest := clientDataTx_loop e recvs keys.tail sends.tail response
      (pollEvents (pendingKey keys) ++ .recv bytes_received :: .print resp
        :: .sendMain buffer (nextSend sends) :: rest.1, rest.2)

/-- The program `clientDataTx.cpp` (`main`, lines 49-190): the set-up of
`client_data_tx.c`, the start request and the loop; after the loop only
`WSACleanup()` is called. -/
def clientDataTx_main (w : World) : Run :=
  if !w.WSAStartup then ⟨[], some 1⟩
  else if !w.socketMain then ⟨[.closeMain, .WSACleanup], some 1⟩
  else if !w.socketFT then ⟨[.WSACleanup], some 1⟩
  else if !w.inet_ptonMain then ⟨[.closeMain, .WSACleanup], some 1⟩
  else if !w.connectMain then ⟨[.closeMain, .WSACleanup], some 1⟩
  else if !w.inet_ptonFT then ⟨[.closeFT, .WSACleanup], some 1⟩
  else if !w.connectFT then ⟨[.closeFT, .WSACleanup], some 1⟩
  else
    let request := buildRequest w.host COMMAND NUM_SAMPLES
    let loop := clientDataTx_loop w.host w.recvs w.keys w.sends w.response0
    if loop.2 then ⟨.sendFT request :: loop.1 ++ [.WSACleanup], some 0⟩
    else ⟨.sendFT request :: loop.1, none⟩

/-- One field of a dotted-decimal IPv4 address: one to three decimal digits
with a value of at most 255. -/
def dottedField (cs : List Char) : Bool :=
  !cs.isEmpty && cs.length ≤ 3 && cs.all Char.isDigit &&
    decide (cs.foldl (fun n c => 10 * n + (c.toNat - 48)) 0 ≤ 255)

/-- The fields of a string cut at its dots. -/
def splitDots : List Char → List (List Char)
  | [] => [[]]
  | c :: cs =>
    match splitDots cs with
    | [] => [[]]
    | f :: fs => if c = '.' then [] :: f :: fs else (c :: f) :: fs

/-- The library call `inet_pton(AF_INET, src, dst) > 0`: whether `src` is an
IPv4 address in dotted-decimal notation (four fields). -/
def inet_pton (src : String) : Bool :=
  (splitDots src.toList).length == 4 && (splitDots src.toList).all dottedField

/-- The constant `ip_address` of `read_data_single.c` (line 61). -/
def ip_address : String := "192.168.1.1"

/-- The loop of `read_data_single.c` (lines 89-113); its body ends in `break`,
so it runs at most once. -/
def read_data_single_loop (e : Endian) (recvs : List (Option (List Byte)))
    (keys : List (Option Int)) (response : List Byte) : List Event × Bool :=
  match pendingKey keys with
  | some _ => ([.kbhit true], true)
  | none =>
    match recvs with
    | [] => ([.kbhit false, .recvBlocks], false)
    | none :: _ => ([.kbhit false, .recv (-1)], true)
    | some data :: _ =>
      let bytes_received := bytesReceived data
      let response := recvInto response data
      let resp := decodeResponse e response
      ([.kbhit false, .recv bytes_received, .print resp], true)

/-- The program `read_data_single.c` (`main`, lines 35-119).  It calls
`inet_pton` on the constant `ip_address` twice (lines 66-67) and drops the return
value both times, so no exit depends on it and `inet_ptonFT` is not consulted. -/
def read_data_single_main (w : World) : Run :=
  if !w.WSAStartup then ⟨[], some (-1)⟩
  else if !w.socketFT then ⟨[.WSACleanup], some (-1)⟩
  else if !w.connectFT then ⟨[.closeFT, .WSACleanup], some (-1)⟩
  else
    let request := buildRequest w.host COMMAND NUM_SAMPLES_single
    let loop := read_data_single_loop w.host w.recvs w.keys w.response0
    if loop.2 then ⟨.sendFT request :: loop.1 ++ [.closeFT, .WSACleanup], some 0⟩
    else ⟨.sendFT request :: loop.1, none⟩

/-! ## Observations on a trace -/

/-- The frames written to the downstream connection, in order. -/
def framesWritten (t : List Event) : List (List Byte) :=
  t.filterMap fun ev => match ev with
    | .sendMain buffer _ => some buffer
    | _ => none

/-- The return values of the downstream writes, in order. -/
def writeResults (t : List Event) : List Int :=
  t.filterMap fun ev => match ev with
    | .sendMain _ ret => some ret
    | _ => none

/-- The return values of the receives that returned, in order. -/
def receiveResults (t : List Event) : List Int :=
  t.filterMap fun ev => match ev with
    | .recv n => some n
    | _ => none

/-- The samples decoded (and printed), in order. -/
def samplesDecoded (t : List Event) : List response_struct :=
  t.filterMap fun ev => match ev with
    | .print resp => some resp
    | _ => none

/-- Whether the call is a `recv` on the device socket. -/
def Event.isRecv (ev : Event) : Bool :=
  match ev with
  | .recv _ => true
  | .recvBlocks => true
  | _ => false

/-- Whether the call is a `send`, on either socket. -/
def Event.isSend (ev : Event) : Bool :=
  match ev with
  | .sendFT _ => true
  | .sendMain _ _ => true
  | _ => false

/-- All seven set-up calls of the relay programs succeed. -/
def World.setupOk (w : World) : Bool :=
  w.WSAStartup && w.socketMain && w.socketFT && w.inet_ptonMain && w.connectMain
    && w.inet_ptonFT && w.connectFT

/-- The call with the return value of a downstream `send` blanked out. -/
def Event.eraseRet (ev : Event) : Event :=
  match ev with
  | .sendMain buffer _ => .sendMain buffer 0
  | ev => ev

/-- How often the downstream socket and the device socket are closed. -/
def closeCounts (t : List Event) : Nat × Nat :=
  (t.count .closeMain, t.count .closeFT)

/-- The shape of a trace of the C loop: complete iterations, each made of one
key test that finds nothing, one receive that returns data, the print and the
downstream write; ended by a key test that finds a key, or by a key test that
finds nothing followed by a receive that fails or never returns. -/
def loopShapeC : List Event → Bool
  | .kbhit true :: rest => rest.isEmpty
  | .kbhit false :: .recvBlocks :: rest => rest.isEmpty
  | .kbhit false :: .recv n :: rest =>
    if n = -1 then rest.isEmpty
    else
      match rest with
      | .print _ :: .sendMain _ _ :: rest => loopShapeC rest
      | _ => false
  | _ => false

/-- The shape of a trace of the C++ loop: as `loopShapeC`, except that a key
test that finds a key is followed by the read of that key, and ends the loop
(after the two `closesocket` calls) only when the key is ESC. -/
def loopShapeCpp : List Event → Bool
  | .kbhit true :: .getch ch :: rest =>
    if ch = 27 then decide (rest = [.closeMain, .closeFT])
    else
      match rest with
      | .recvBlocks :: rest => rest.isEmpty
      | .recv n :: rest =>
        if n = -1 then rest.isEmpty
        else
          match rest with
          | .print _ :: .sendMain _ _ :: rest => loopShapeCpp rest
          | _ => false
      | _ => false
  | .kbhit false :: .recvBlocks :: rest => rest.isEmpty
  | .kbhit false :: .recv n :: rest =>
    if n = -1 then rest.isEmpty
    else
      match rest with
      | .print _ :: .sendMain _ _ :: rest => loopShapeCpp rest
      | _ => false
  | _ => false

/-! ## Big-endian reference values (the wording of the specification) -/

/-- The unsigned big-endian 32-bit value of four bytes, most significant first. -/
def be32 (b0 b1 b2 b3 : Byte) : Nat :=
  b0.val * 0x1000000 + b1.val * 0x10000 + b2.val * 0x100 + b3.val

/-- The two's-complement signed reading of a 32-bit pattern `v < 2^32`. -/
def signed32 (v : Nat) : Int := if v < 2 ^ 31 then (v : Int) else (v : Int) - 2 ^ 32

/-- The unsigned big-endian value of `b[off .. off+3]`. -/
def be32At (b : List Byte) (off : Nat) : Nat :=
  be32 (byteAt b off) (byteAt b (off + 1)) (byteAt b (off + 2)) (byteAt b (off + 3))

/-- The four bytes of the 32-bit pattern `v`, most significant first. -/
def beBytes (v : Nat) : List Byte :=
  [toByte (v / 0x1000000), toByte (v / 0x10000), toByte (v / 0x100), toByte v]

/-! ## Concrete frames and worlds -/

/-- A full frame: sequence numbers 1 and 2, status 0, `Fx = -1`, `Fy = 256`. -/
def frameA : List Byte :=
  [0, 0, 0, 1, 0, 0, 0, 2, 0, 0, 0, 0, 0xFF, 0xFF, 0xFF, 0xFF, 0, 0, 1, 0, 0, 0, 0, 0, 0, 0, 0, 0,
    0, 0, 0, 0, 0, 0, 0, 0]

/-- A second full frame. -/
def frameB : List Byte :=
  [0, 0, 0, 2, 0, 0, 0, 3, 0x80, 0, 0, 0, 0, 0, 0, 7, 0, 0, 0, 0, 0, 0, 0, 0, 0, 0, 0, 0,
    0x7F, 0xFF, 0xFF, 0xFF, 0x80, 0, 0, 0]

/-- A world in which every set-up call succeeds, no key is pressed, and nothing
arrives from the device. -/
def quietWorld : World :=
  { host := .little, WSAStartup := true, socketMain := true, socketFT := true,
    inet_ptonMain := true, connectMain := true, inet_ptonFT := true, connectFT := true,
    response0 := List.replicate 36 0, keys := [], recvs := [], sends := [] }

/-- A sample with extreme field values. -/
def sampleA : response_struct :=
  { rdt_sequence := 1, ft_sequence := 4294967295, status := 2147483648,
    ft_data := [-1, 256, 0, -2147483648, 2147483647, 7] }

/-- The device sends `frameA`, `frameB` and then the receive fails. -/
def twoFrameWorld : World :=
  { quietWorld with recvs := [some frameA, some frameB, none] }

/-- As `twoFrameWorld`, with every downstream `send` failing. -/
def failedWriteWorld : World :=
  { twoFrameWorld with sends := [-1, -1] }

/-- The device sends `frameA`, then a datagram of four bytes, then the receive
fails. -/
def shortReadWorld : World :=
  { quietWorld with recvs := [some frameA, some [9, 9, 9, 9], none] }

/-- The first receive fails. -/
def recvErrorWorld : World :=
  { quietWorld with recvs := [none] }

/-- The `connect` on the device socket fails. -/
def noDeviceWorld : World :=
  { quietWorld with connectFT := false, recvs := [some frameA] }

/-- ESC is waiting at the second key test. -/
def escapeWorld : World :=
  { twoFrameWorld with keys := [none, some 27] }

/-! ## Arithmetic of the conversions -/

theorem toByte_val (n : Nat) : (toByte n).val = n % 256 := rfl

theorem toByte_of_val (b : Byte) : toByte b.val = b := by
  apply Fin.ext
  simp [toByte_val, Nat.mod_eq_of_lt b.isLt]

theorem be32_lt (b0 b1 b2 b3 : Byte) : be32 b0 b1 b2 b3 < 2 ^ 32 := by
  have h0 := b0.isLt
  have h1 := b1.isLt
  have h2 := b2.isLt
  have h3 := b3.isLt
  unfold be32
  omega

theorem bswap32_lt (x : Nat) : bswap32 x < 2 ^ 32 := by
  unfold bswap32
  omega

theorem be_bytes (a b c d : Nat) (ha : a < 256) (hb : b < 256) (hc : c < 256) (hd : d < 256) :
    (a * 0x1000000 + b * 0x10000 + c * 0x100 + d) % 0x100 = d ∧
    (a * 0x1000000 + b * 0x10000 + c * 0x100 + d) / 0x100 % 0x100 = c ∧
    (a * 0x1000000 + b * 0x10000 + c * 0x100 + d) / 0x10000 % 0x100 = b ∧
    (a * 0x1000000 + b * 0x10000 + c * 0x100 + d) / 0x1000000 % 0x100 = a := by
  refine ⟨by omega, by omega, by omega, by omega⟩

/-- The four bytes of a reversed word are the four bytes of the word, reversed. -/
theorem bswap32_bytes (w : Nat) :
    bswap32 w % 0x100 = w / 0x1000000 % 0x100 ∧
    bswap32 w / 0x100 % 0x100 = w / 0x10000 % 0x100 ∧
    bswap32 w / 0x10000 % 0x100 = w / 0x100 % 0x100 ∧
    bswap32 w / 0x1000000 % 0x100 = w % 0x100 := by
  have h := be_bytes (w % 0x100) (w / 0x100 % 0x100) (w / 0x10000 % 0x100)
    (w / 0x1000000 % 0x100) (Nat.mod_lt _ (by decide)) (Nat.mod_lt _ (by decide))
    (Nat.mod_lt _ (by decide)) (Nat.mod_lt _ (by decide))
  exact h

theorem mod32_bytes (v : Nat) :
    v % 2 ^ 32 % 0x100 = v % 0x100 ∧
    v % 2 ^ 32 / 0x100 % 0x100 = v / 0x100 % 0x100 ∧
    v % 2 ^ 32 / 0x10000 % 0x100 = v / 0x10000 % 0x100 ∧
    v % 2 ^ 32 / 0x1000000 % 0x100 = v / 0x1000000 % 0x100 := by
  refine ⟨by omega, by omega, by omega, by omega⟩

theorem bswap32_bswap32 (x : Nat) (h : x < 2 ^ 32) : bswap32 (bswap32 x) = x := by
  obtain ⟨h0, h1, h2, h3⟩ := bswap32_bytes x
  have hx : x = (x / 0x1000000 % 0x100) * 0x1000000 + (x / 0x10000 % 0x100) * 0x10000
      + (x / 0x100 % 0x100) * 0x100 + x % 0x100 := by omega
  show (bswap32 x % 0x100) * 0x1000000 + (bswap32 x / 0x100 % 0x100) * 0x10000
      + (bswap32 x / 0x10000 % 0x100) * 0x100 + bswap32 x / 0x1000000 % 0x100 = x
  rw [h0, h1, h2, h3]
  omega

theorem htonl_lt (e : Endian) (x : Nat) : htonl e x < 2 ^ 32 := by
  cases e
  · exact bswap32_lt _
  · exact Nat.mod_lt _ (by decide)

theorem ntohl_lt (e : Endian) (x : Nat) : ntohl e x < 2 ^ 32 := by
  cases e
  · exact bswap32_lt _
  · exact Nat.mod_lt _ (by decide)

theorem toUInt32_toInt32 (n : Nat) : toUInt32 (toInt32 n) = n % 2 ^ 32 := by
  unfold toUInt32 toInt32
  split <;> omega

theorem toInt32_toUInt32 (x : Int) (h1 : -(2 ^ 31 : Int) ≤ x) (h2 : x < 2 ^ 31) :
    toInt32 (toUInt32 x) = x := by
  unfold toUInt32 toInt32
  split <;> omega

theorem toInt32_eq_signed32 (v : Nat) (h : v < 2 ^ 32) : toInt32 v = signed32 v := by
  unfold toInt32 signed32
  rw [Nat.mod_eq_of_lt h]

/-- Reading a word and converting it from network order gives the big-endian
value of its four bytes, whatever the host byte order. -/
theorem ntohl_load32 (e : Endian) (buf : List Byte) (off : Nat) :
    ntohl e (load32 e buf off) = be32At buf off := by
  have h0 := (byteAt buf off).isLt
  have h1 := (byteAt buf (off + 1)).isLt
  have h2 := (byteAt buf (off + 2)).isLt
  have h3 := (byteAt buf (off + 3)).isLt
  cases e <;> simp only [ntohl, load32, be32At, be32, bswap32] <;> omega

/-- Converting a word to network order and writing it puts its four bytes in
memory most significant first, whatever the host byte order. -/
theorem store32_htonl (e : Endian) (buf : List Byte) (off v : Nat) :
    store32 e buf off (htonl e v) =
      (((buf.set off (toByte (v / 0x1000000))).set (off + 1) (toByte (v / 0x10000))).set (off + 2)
        (toByte (v / 0x100))).set (off + 3) (toByte v) := by
  have hb : ∀ a b : Nat, a % 256 = b % 256 → toByte a = toByte b := by
    intro a b h
    apply Fin.ext
    simpa [toByte_val] using h
  obtain ⟨m0, m1, m2, m3⟩ := mod32_bytes v
  cases e
  · obtain ⟨h0, h1, h2, h3⟩ := bswap32_bytes (v % 2 ^ 32)
    simp only [store32, htonl]
    rw [hb (bswap32 (v % 2 ^ 32)) (v / 0x1000000) (h0.trans m3),
      hb (bswap32 (v % 2 ^ 32) / 0x100) (v / 0x10000) (h1.trans m2),
      hb (bswap32 (v % 2 ^ 32) / 0x10000) (v / 0x100) (h2.trans m1),
      hb (bswap32 (v % 2 ^ 32) / 0x1000000) v (h3.trans m0)]
  · simp only [store32, htonl]
    rw [hb (v % 2 ^ 32 / 0x1000000) (v / 0x1000000) m3,
      hb (v % 2 ^ 32 / 0x10000) (v / 0x10000) m2,
      hb (v % 2 ^ 32 / 0x100) (v / 0x100) m1,
      hb (v % 2 ^ 32) v m0]

theorem ntohl_mod (e : Endian) (x : Nat) : ntohl e (x % 2 ^ 32) = ntohl e x := by
  cases e <;> simp [ntohl]

theorem htonl_mod (e : Endian) (x : Nat) : htonl e x % 2 ^ 32 = htonl e x :=
  Nat.mod_eq_of_lt (htonl_lt e x)

theorem be32_beBytes (v : Nat) :
    be32 (toByte (v / 0x1000000)) (toByte (v / 0x10000)) (toByte (v / 0x100)) (toByte v)
      = v % 2 ^ 32 := by
  simp only [be32, toByte_val]
  omega

theorem beBytes_be32 (b0 b1 b2 b3 : Byte) : beBytes (be32 b0 b1 b2 b3) = [b0, b1, b2, b3] := by
  obtain ⟨h0, h1, h2, h3⟩ := be_bytes b0.val b1.val b2.val b3.val b0.isLt b1.isLt b2.isLt b3.isLt
  have hb : ∀ (n : Nat) (b : Byte), n % 0x100 = b.val → toByte n = b := by
    intro n b h
    apply Fin.ext
    simpa [toByte_val] using h
  have e0 := hb _ b3 h0
  have e1 := hb _ b2 h1
  have e2 := hb _ b1 h2
  have e3 := hb _ b0 h3
  simp only [beBytes]
  unfold be32
  rw [e0, e1, e2, e3]

theorem signed32_toUInt32 (x : Int) (h1 : -(2 ^ 31 : Int) ≤ x) (h2 : x < 2 ^ 31) :
    signed32 (toUInt32 x) = x := by
  unfold toUInt32 signed32
  split <;> omega

theorem toUInt32_signed32 (v : Nat) (h : v < 2 ^ 32) : toUInt32 (signed32 v) = v := by
  unfold toUInt32 signed32
  split <;> omega

theorem toUInt32_lt (x : Int) : toUInt32 x < 2 ^ 32 := by
  unfold toUInt32
  omega

/-! ## The codec in big-endian terms -/

theorem range_six : List.range 6 = [0, 1, 2, 3, 4, 5] := by decide

/-- A list of 36 elements is the list of its 36 entries. -/
theorem frame_eta (b : List Byte) (h : b.length = 36) :
    b = [byteAt b 0, byteAt b 1, byteAt b 2, byteAt b 3, byteAt b 4, byteAt b 5, byteAt b 6,
      byteAt b 7, byteAt b 8, byteAt b 9, byteAt b 10, byteAt b 11, byteAt b 12, byteAt b 13,
      byteAt b 14, byteAt b 15, byteAt b 16, byteAt b 17, byteAt b 18, byteAt b 19, byteAt b 20,
      byteAt b 21, byteAt b 22, byteAt b 23, byteAt b 24, byteAt b 25, byteAt b 26, byteAt b 27,
      byteAt b 28, byteAt b 29, byteAt b 30, byteAt b 31, byteAt b 32, byteAt b 33, byteAt b 34,
      byteAt b 35] := by
  apply List.ext_getElem
  · simp [h]
  · intro i h1 h2
    rw [h] at h1
    interval_cases i <;> simp [byteAt, List.getD_eq_getElem?_getD, List.getElem?_eq_getElem, h]

/-- What the decoder computes, in terms of big-endian values. -/
theorem decodeResponse_eq (e : Endian) (b : List Byte) :
    decodeResponse e b =
      { rdt_sequence := be32At b 0
        ft_sequence := be32At b 4
        status := be32At b 8
        ft_data := (List.range 6).map fun i => signed32 (be32At b (12 + i * 4)) } := by
  have hs : ∀ off, toInt32 (ntohl e (toUInt32 (toInt32 (load32 e b off))))
      = signed32 (be32At b off) := by
    intro off
    rw [toUInt32_toInt32, ntohl_mod, ntohl_load32]
    exact toInt32_eq_signed32 _ (be32_lt _ _ _ _)
  simp only [decodeResponse, ntohl_load32, hs]

/-- The 36 bytes the encoder leaves in the buffer: the nine fields, each most
significant byte first, whatever the buffer held before. -/
theorem encodeRelayFrameInto_eq (e : Endian) (buffer0 : List Byte) (h : buffer0.length = 36)
    (resp : response_struct) :
    encodeRelayFrameInto e buffer0 resp =
      beBytes resp.rdt_sequence ++ beBytes resp.ft_sequence ++ beBytes resp.status ++
        (List.range 6).flatMap fun i => beBytes (toUInt32 (resp.ft_data.getD i 0)) := by
  have hs : ∀ x : Int, toUInt32 (toInt32 (htonl e (toUInt32 x))) = htonl e (toUInt32 x) := by
    intro x
    rw [toUInt32_toInt32, htonl_mod]
  rw [frame_eta buffer0 h]
  simp only [encodeRelayFrameInto, range_six, hs, store32_htonl, List.foldl_cons, List.foldl_nil,
    List.flatMap_cons, List.flatMap_nil, beBytes]
  simp

theorem ft_data_eta (data : List Int) (hlen : data.length = 6) :
    ∃ d0 d1 d2 d3 d4 d5 : Int, data = d0 :: d1 :: d2 :: d3 :: d4 :: [d5] := by
  match data, hlen with
  | [d0, d1, d2, d3, d4, d5], _ => exact ⟨d0, d1, d2, d3, d4, d5, rfl⟩

/-- Decoding what the encoder wrote gives the sample back. -/
theorem decode_encode (e : Endian) (buffer0 : List Byte) (h0 : buffer0.length = 36)
    (s : response_struct) (h : s.WellFormed) :
    decodeResponse e (encodeRelayFrameInto e buffer0 s) = s := by
  obtain ⟨rdt, ft, st, data⟩ := s
  obtain ⟨h1, h2, h3, h4, h5⟩ := h
  simp only at h1 h2 h3 h4 h5
  obtain ⟨d0, d1, d2, d3, d4, d5, rfl⟩ := ft_data_eta data h4
  have hd : ∀ x ∈ [d0, d1, d2, d3, d4, d5], signed32 (toUInt32 x % 2 ^ 32) = x := by
    intro x hx
    rw [Nat.mod_eq_of_lt (toUInt32_lt x)]
    exact signed32_toUInt32 x (h5 x hx).1 (h5 x hx).2
  rw [decodeResponse_eq, encodeRelayFrameInto_eq e buffer0 h0]
  simp only [range_six, List.flatMap_cons, List.flatMap_nil, beBytes, List.map_cons, List.map_nil,
    be32At, byteAt]
  simp only [List.cons_append, List.nil_append, List.append_nil, List.getD_cons_zero,
    List.getD_cons_succ, Nat.reduceAdd, Nat.reduceMul, be32_beBytes]
  rw [Nat.mod_eq_of_lt h1, Nat.mod_eq_of_lt h2, Nat.mod_eq_of_lt h3,
    hd d0 (by simp), hd d1 (by simp), hd d2 (by simp), hd d3 (by simp), hd d4 (by simp),
    hd d5 (by simp)]

/-- Encoding what the decoder read from a full frame gives the frame back. -/
theorem encode_decode (e : Endian) (buffer0 : List Byte) (h0 : buffer0.length = 36)
    (b : List Byte) (h : b.length = 36) :
    encodeRelayFrameInto e buffer0 (decodeResponse e b) = b := by
  rw [decodeResponse_eq, encodeRelayFrameInto_eq e buffer0 h0]
  simp only [range_six, List.flatMap_cons, List.flatMap_nil, List.map_cons, List.map_nil,
    List.getD_cons_zero, List.getD_cons_succ, Nat.reduceAdd, Nat.reduceMul,
    toUInt32_signed32 _ (be32_lt _ _ _ _), be32At, beBytes_be32]
  simp only [List.cons_append, List.nil_append, List.append_nil]
  exact (frame_eta b h).symm

theorem encodeRelayFrameInto_length (e : Endian) (buffer0 : List Byte)
    (h : buffer0.length = 36) (resp : response_struct) :
    (encodeRelayFrameInto e buffer0 resp).length = 36 := by
  rw [encodeRelayFrameInto_eq e buffer0 h]
  simp [range_six, beBytes]

/-- Converting a 16-bit value to network order and writing it puts its two
bytes in memory most significant first, whatever the host byte order. -/
theorem store16_htons (e : Endian) (buf : List Byte) (off v : Nat) :
    store16 e buf off (htons e v) = (buf.set off (toByte (v / 0x100))).set (off + 1) (toByte v) := by
  have hb : ∀ a b : Nat, a % 256 = b % 256 → toByte a = toByte b := by
    intro a b h
    apply Fin.ext
    simpa [toByte_val] using h
  have m0 : v % 2 ^ 16 % 0x100 = v % 0x100 := by omega
  have m1 : v % 2 ^ 16 / 0x100 % 0x100 = v / 0x100 % 0x100 := by omega
  have s0 : ∀ a b : Nat, a < 256 → b < 256 → (a * 0x100 + b) % 0x100 = b := by
    intro a b ha hb
    omega
  have s1 : ∀ a b : Nat, a < 256 → b < 256 → (a * 0x100 + b) / 0x100 % 0x100 = a := by
    intro a b ha hb
    omega
  have l0 : v % 2 ^ 16 % 0x100 < 256 := Nat.mod_lt _ (by decide)
  have l1 : v % 2 ^ 16 / 0x100 % 0x100 < 256 := Nat.mod_lt _ (by decide)
  cases e
  · simp only [store16, htons, bswap16, toUInt16]
    rw [hb ((v % 2 ^ 16) % 0x100 * 0x100 + (v % 2 ^ 16) / 0x100 % 0x100) (v / 0x100)
        ((s0 _ _ l0 l1).trans m1),
      hb (((v % 2 ^ 16) % 0x100 * 0x100 + (v % 2 ^ 16) / 0x100 % 0x100) / 0x100) v
        ((s1 _ _ l0 l1).trans m0)]
  · simp only [store16, htons, toUInt16]
    rw [hb (v % 2 ^ 16 / 0x100) (v / 0x100) m1, hb (v % 2 ^ 16) v m0]

theorem request_eta (request : List Byte) (hlen : request.length = 8) :
    ∃ r0 r1 r2 r3 r4 r5 r6 r7 : Byte, request = r0 :: r1 :: r2 :: r3 :: r4 :: r5 :: r6 :: [r7] := by
  match request, hlen with
  | [r0, r1, r2, r3, r4, r5, r6, r7], _ => exact ⟨r0, r1, r2, r3, r4, r5, r6, r7, rfl⟩

/-- The 8 bytes the request construction leaves in `request`, whatever the
array held before. -/
theorem buildRequestInto_eq (e : Endian) (request0 : List Byte) (h : request0.length = 8)
    (c n : Nat) :
    buildRequestInto e request0 c n =
      [0x12, 0x34, toByte (c / 0x100), toByte c, toByte (n / 0x1000000), toByte (n / 0x10000),
        toByte (n / 0x100), toByte n] := by
  obtain ⟨r0, r1, r2, r3, r4, r5, r6, r7, rfl⟩ := request_eta request0 h
  simp only [buildRequestInto, store16_htons, store32_htonl]
  simp
  constructor <;> rfl

/-! ## The codec claims -/

/-- C1 (round trip): for every sample `s` holding three unsigned 32-bit values
and six signed 32-bit values, the relay frame the encoder builds from `s` (in a
36-byte buffer of any previous content) has 36 bytes, and the response decoder
applied to it gives back `s`, field for field and with `ft_data` in the same
order. -/
theorem relay_frame_round_trip (e : Endian) (buffer0 : List Byte) (s : response_struct)
    (hbuf : buffer0.length = 36) (hs : s.WellFormed) :
    (encodeRelayFrameInto e buffer0 s).length = 36 ∧
      decodeResponse e (encodeRelayFrameInto e buffer0 s) = s :=
  ⟨encodeRelayFrameInto_length e buffer0 hbuf s, decode_encode e buffer0 hbuf s hs⟩

theorem relay_frame_round_trip_witness :
    (encodeRelayFrame .little sampleA).length = 36 ∧
      decodeResponse .little (encodeRelayFrame .little sampleA) = sampleA :=
  relay_frame_round_trip .little (List.replicate 36 0) sampleA (by decide)
    (by simp [response_struct.WellFormed, sampleA])

/-- C2 (start request): the request has exactly 8 bytes, whatever the array
held before: the magic `0x1234`, the command code and the sample count, each
most significant byte first.  For the command code 2 and the sample count 0 of
the two relay programs the bytes are `12 34 00 02 00 00 00 00`. -/
theorem start_request_layout (e : Endian) (request0 : List Byte) (c n : Nat)
    (h0 : request0.length = 8) (hc : c < 2 ^ 16) (hn : n < 2 ^ 32) :
    (buildRequestInto e request0 c n).length = 8 ∧
      (buildRequestInto e request0 c n).map Fin.val =
        [0x12, 0x34, c / 256, c % 256, n / 2 ^ 24, n / 2 ^ 16 % 256, n / 2 ^ 8 % 256, n % 256] ∧
      buildRequest e COMMAND NUM_SAMPLES = [0x12, 0x34, 0x00, 0x02, 0x00, 0x00, 0x00, 0x00] := by
  refine ⟨?_, ?_, ?_⟩
  · rw [buildRequestInto_eq e request0 h0]
    rfl
  · rw [buildRequestInto_eq e request0 h0]
    simp only [List.map_cons, List.map_nil, toByte_val]
    have h1 : c / 0x100 % 256 = c / 256 := by omega
    have h2 : n / 0x1000000 % 256 = n / 2 ^ 24 := by omega
    have h3 : n / 0x10000 % 256 = n / 2 ^ 16 % 256 := by omega
    have h4 : n / 0x100 % 256 = n / 2 ^ 8 % 256 := by omega
    rw [h1, h2, h3, h4]
    rfl
  · cases e <;> decide

theorem start_request_layout_witness :
    (buildRequest .little 2 1).length = 8 ∧
      (buildRequest .little 2 1).map Fin.val =
        [0x12, 0x34, 2 / 256, 2 % 256, 1 / 2 ^ 24, 1 / 2 ^ 16 % 256, 1 / 2 ^ 8 % 256, 1 % 256] ∧
      buildRequest .little COMMAND NUM_SAMPLES = [0x12, 0x34, 0x00, 0x02, 0x00, 0x00, 0x00, 0x00] :=
  start_request_layout .little (List.replicate 8 0) 2 1 (by decide) (by decide) (by decide)

/-- C3 (response decode): for every 36-byte buffer `b` the decoder sets
`rdt_sequence`, `ft_sequence` and `status` to the unsigned big-endian values of
`b[0..3]`, `b[4..7]`, `b[8..11]`, and `ft_data[i]`, for `i` in `0..5`, to the
two's-complement signed big-endian value of `b[12+4i .. 15+4i]`; bytes 12-15
equal to `FF FF FF FF` give `ft_data[0] = -1`. -/
theorem decode_layout (e : Endian) (b : List Byte) (h : b.length = 36) :
    (∀ i, i < 36 → b[i]? = some (byteAt b i)) ∧
      (decodeResponse e b).rdt_sequence
        = be32 (byteAt b 0) (byteAt b 1) (byteAt b 2) (byteAt b 3) ∧
      (decodeResponse e b).ft_sequence
        = be32 (byteAt b 4) (byteAt b 5) (byteAt b 6) (byteAt b 7) ∧
      (decodeResponse e b).status
        = be32 (byteAt b 8) (byteAt b 9) (byteAt b 10) (byteAt b 11) ∧
      (decodeResponse e b).ft_data.length = 6 ∧
      (∀ i, i < 6 → (decodeResponse e b).ft_data[i]? = some (signed32
        (be32 (byteAt b (12 + 4 * i)) (byteAt b (13 + 4 * i)) (byteAt b (14 + 4 * i))
          (byteAt b (15 + 4 * i))))) ∧
      (byteAt b 12 = 0xFF → byteAt b 13 = 0xFF → byteAt b 14 = 0xFF → byteAt b 15 = 0xFF →
        (decodeResponse e b).ft_data[0]? = some (-1)) := by
  rw [decodeResponse_eq]
  refine ⟨?_, rfl, rfl, rfl, by simp, ?_, ?_⟩
  · intro i hi
    have hi2 : i < b.length := by omega
    simp [byteAt, List.getD_eq_getElem?_getD, List.getElem?_eq_getElem hi2]
  · intro i hi
    interval_cases i <;> simp [range_six, be32At]
  · intro h12 h13 h14 h15
    have hv : signed32 (be32 0xFF 0xFF 0xFF 0xFF) = -1 := by decide
    simpa [range_six, be32At, h12, h13, h14, h15] using hv

theorem decode_layout_witness :
    (decodeResponse .little frameA).rdt_sequence = 1 ∧
      (decodeResponse .little frameA).ft_data[0]? = some (-1) :=
  ⟨by
    have h := (decode_layout .little frameA (by decide)).2.1
    simpa [be32, byteAt, frameA] using h,
   (decode_layout .little frameA (by decide)).2.2.2.2.2.2 (by decide) (by decide) (by decide)
    (by decide)⟩

/-- C10 (re-encoding is the identity on full frames): for every 36-byte buffer
`b`, the relay frame built from the sample decoded from `b` is 36 bytes long
and byte-for-byte equal to `b`. -/
theorem reencode_is_identity (e : Endian) (buffer0 b : List Byte) (hbuf : buffer0.length = 36)
    (h : b.length = 36) :
    (encodeRelayFrameInto e buffer0 (decodeResponse e b)).length = 36 ∧
      encodeRelayFrameInto e buffer0 (decodeResponse e b) = b :=
  ⟨encodeRelayFrameInto_length e buffer0 hbuf _, encode_decode e buffer0 hbuf b h⟩

theorem reencode_is_identity_witness :
    (encodeRelayFrame .little (decodeResponse .little frameB)).length = 36 ∧
      encodeRelayFrame .little (decodeResponse .little frameB) = frameB :=
  reencode_is_identity .little (List.replicate 36 0) frameB (by decide) (by decide)

/-! ## The receive buffer -/

theorem recvInto_length (response data : List Byte) (h : response.length = 36) :
    (recvInto response data).length = 36 := by
  simp only [recvInto, List.length_append, List.length_drop, List.length_take, h]
  omega

theorem recvInto_short (response data : List Byte) (hd : data.length ≤ 36) :
    recvInto response data = data ++ response.drop data.length := by
  simp only [recvInto, List.take_of_length_le hd]

theorem recvInto_full (response data : List Byte) (h : response.length = 36)
    (hd : data.length = 36) : recvInto response data = data := by
  rw [recvInto_short response data (by omega), hd, List.drop_of_length_le (by omega)]
  simp

theorem bytesReceived_short (data : List Byte) (hd : data.length ≤ 36) :
    bytesReceived data = (data.length : Nat) := by
  simp only [bytesReceived, List.take_of_length_le hd]

theorem bytesReceived_nonneg (data : List Byte) : bytesReceived data ≠ -1 := by
  unfold bytesReceived
  omega

/-- In the loop the frame written for a 36-byte buffer is the buffer itself. -/
theorem encodeRelayFrame_decodeResponse (e : Endian) (b : List Byte) (h : b.length = 36) :
    encodeRelayFrame e (decodeResponse e b) = b :=
  encode_decode e (List.replicate 36 0) (by simp) b h

theorem pendingKey_none (keys : List (Option Int)) (h : ∀ k ∈ keys, k = none) :
    pendingKey keys = none := by
  cases keys with
  | nil => rfl
  | cons k ks => exact h k (by simp)

theorem pendingKey_ne (keys : List (Option Int)) (h : ∀ k ∈ keys, k ≠ some 27) :
    pendingKey keys ≠ some 27 := by
  cases keys with
  | nil => simp [pendingKey]
  | cons k ks => exact h k (by simp)

theorem tail_forall {α : Type} (p : α → Prop) (l : List α) (h : ∀ x ∈ l, p x) :
    ∀ x ∈ l.tail, p x :=
  fun x hx => h x (List.mem_of_mem_tail hx)

/-! ## The loop on a run of full frames ended by a receive error -/

/-- The C loop, fed `fs` in full and then a receive error, with no key ever
waiting: it leaves after the failed receive, having written the re-encoding of
each frame in order. -/
theorem client_data_tx_loop_frames (e : Endian) (fs : List (List Byte))
    (rest : List (Option (List Byte))) :
    ∀ (keys : List (Option Int)) (sends : List Int) (response : List Byte),
      (∀ k ∈ keys, k = none) → (∀ f ∈ fs, f.length = 36) → response.length = 36 →
      ∃ pre, client_data_tx_loop e (fs.map some ++ none :: rest) keys sends response
          = (pre ++ [.kbhit false, .recv (-1)], true) ∧
        framesWritten pre = fs.map (fun f => encodeRelayFrame e (decodeResponse e f)) ∧
        receiveResults pre = List.replicate fs.length 36 ∧
        samplesDecoded pre = fs.map (decodeResponse e) := by
  induction fs with
  | nil =>
    intro keys sends response hk _ _
    refine ⟨[], ?_, rfl, rfl, rfl⟩
    simp [client_data_tx_loop, pendingKey_none keys hk]
  | cons f fs ih =>
    intro keys sends response hk hf hr
    have hf36 : f.length = 36 := hf f (by simp)
    obtain ⟨pre, hpre, h1, h2, h3⟩ := ih keys.tail sends.tail f (tail_forall _ keys hk)
      (fun g hg => hf g (by simp [hg])) hf36
    refine ⟨.kbhit false :: .recv 36 :: .print (decodeResponse e f)
      :: .sendMain (encodeRelayFrame e (decodeResponse e f)) (nextSend sends) :: pre, ?_, ?_, ?_, ?_⟩
    · have hb : bytesReceived f = 36 := by rw [bytesReceived_short f (by omega), hf36]; rfl
      simp only [List.map_cons, List.cons_append, client_data_tx_loop, pendingKey_none keys hk,
        recvInto_full response f hr hf36, hb, hpre]
    · simp [framesWritten] at h1 ⊢
      exact h1
    · simp [receiveResults, List.replicate_succ] at h2 ⊢
      exact h2
    · simp [samplesDecoded] at h3 ⊢
      exact h3

/-- The C++ loop, fed `fs` in full and then a receive error, with ESC never
waiting. -/
theorem clientDataTx_loop_frames (e : Endian) (fs : List (List Byte))
    (rest : List (Option (List Byte))) :
    ∀ (keys : List (Option Int)) (sends : List Int) (response : List Byte),
      (∀ k ∈ keys, k ≠ some 27) → (∀ f ∈ fs, f.length = 36) → response.length = 36 →
      ∃ pre, clientDataTx_loop e (fs.map some ++ none :: rest) keys sends response
          = (pre ++ [.recv (-1)], true) ∧
        framesWritten pre = fs.map (fun f => encodeRelayFrame e (decodeResponse e f)) ∧
        receiveResults pre = List.replicate fs.length 36 ∧
        samplesDecoded pre = fs.map (decodeResponse e) := by
  have hpoll : ∀ key : Option Int, framesWritten (pollEvents key) = [] ∧
      receiveResults (pollEvents key) = [] ∧ samplesDecoded (pollEvents key) = [] := by
    intro key
    cases key <;> simp [pollEvents, framesWritten, receiveResults, samplesDecoded]
  induction fs with
  | nil =>
    intro keys sends response hk _ _
    refine ⟨pollEvents (pendingKey keys), ?_, (hpoll _).1, (hpoll _).2.1, (hpoll _).2.2⟩
    simp [clientDataTx_loop, pendingKey_ne keys hk]
  | cons f fs ih =>
    intro keys sends response hk hf hr
    have hf36 : f.length = 36 := hf f (by simp)
    obtain ⟨pre, hpre, h1, h2, h3⟩ := ih keys.tail sends.tail f (tail_forall _ keys hk)
      (fun g hg => hf g (by simp [hg])) hf36
    refine ⟨pollEvents (pendingKey keys) ++ .recv 36 :: .print (decodeResponse e f)
      :: .sendMain (encodeRelayFrame e (decodeResponse e f)) (nextSend sends) :: pre, ?_, ?_, ?_, ?_⟩
    · have hb : bytesReceived f = 36 := by rw [bytesReceived_short f (by omega), hf36]; rfl
      simp only [List.map_cons, List.cons_append, clientDataTx_loop, pendingKey_ne keys hk,
        if_false, recvInto_full response f hr hf36, hb, List.append_eq, hpre, List.append_assoc]
    · rw [framesWritten, List.filterMap_append]
      have := (hpoll (pendingKey keys)).1
      rw [framesWritten] at this
      rw [this, List.nil_append, List.map_cons, ← h1]
      rfl
    · rw [receiveResults, List.filterMap_append]
      have := (hpoll (pendingKey keys)).2.1
      rw [receiveResults] at this
      rw [this, List.nil_append, List.length_cons, List.replicate_succ, ← h2]
      rfl
    · rw [samplesDecoded, List.filterMap_append]
      have := (hpoll (pendingKey keys)).2.2
      rw [samplesDecoded] at this
      rw [this, List.nil_append, List.map_cons, ← h3]
      rfl

/-! ## The programs after a successful set-up -/

theorem client_data_tx_main_of_setupOk (w : World) (h : w.setupOk = true) :
    client_data_tx_main w =
      if (client_data_tx_loop w.host w.recvs w.keys w.sends w.response0).2 then
        ⟨.sendFT (buildRequest w.host COMMAND NUM_SAMPLES)
          :: (client_data_tx_loop w.host w.recvs w.keys w.sends w.response0).1
            ++ [.closeMain, .closeFT, .WSACleanup], some 0⟩
      else
        ⟨.sendFT (buildRequest w.host COMMAND NUM_SAMPLES)
          :: (client_data_tx_loop w.host w.recvs w.keys w.sends w.response0).1, none⟩ := by
  simp only [World.setupOk, Bool.and_eq_true] at h
  obtain ⟨⟨⟨⟨⟨⟨h1, h2⟩, h3⟩, h4⟩, h5⟩, h6⟩, h7⟩ := h
  simp [client_data_tx_main, h1, h2, h3, h4, h5, h6, h7]

theorem clientDataTx_main_of_setupOk (w : World) (h : w.setupOk = true) :
    clientDataTx_main w =
      if (clientDataTx_loop w.host w.recvs w.keys w.sends w.response0).2 then
        ⟨.sendFT (buildRequest w.host COMMAND NUM_SAMPLES)
          :: (clientDataTx_loop w.host w.recvs w.keys w.sends w.response0).1
            ++ [.WSACleanup], some 0⟩
      else
        ⟨.sendFT (buildRequest w.host COMMAND NUM_SAMPLES)
          :: (clientDataTx_loop w.host w.recvs w.keys w.sends w.response0).1, none⟩ := by
  simp only [World.setupOk, Bool.and_eq_true] at h
  obtain ⟨⟨⟨⟨⟨⟨h1, h2⟩, h3⟩, h4⟩, h5⟩, h6⟩, h7⟩ := h
  simp [clientDataTx_main, h1, h2, h3, h4, h5, h6, h7]

/-! ## The streaming claims -/

/-- C5 (N frames, then a receive error): when the set-up succeeds, cancellation
is never signalled (no key waiting in the C program, no ESC waiting in the C++
program) and the receives return the 36-byte frames `fs` followed by an error,
each relay program returns 0, writes exactly the re-encodings of the samples
decoded from `fs`, in order and 36 bytes each, performs `fs.length + 1`
receives of which the last is the failed one, and makes no receive and no
write after it. -/
theorem relay_forwards_frames_in_order (w : World) (fs : List (List Byte))
    (rest : List (Option (List Byte))) (hsetup : w.setupOk = true)
    (hbuf : w.response0.length = 36) (hfs : ∀ f ∈ fs, f.length = 36)
    (hrecvs : w.recvs = fs.map some ++ none :: rest) :
    ((∀ k ∈ w.keys, k = none) →
      (client_data_tx_main w).exit = some 0 ∧
      framesWritten (client_data_tx_main w).trace
        = fs.map (fun f => encodeRelayFrame w.host (decodeResponse w.host f)) ∧
      (∀ b ∈ framesWritten (client_data_tx_main w).trace, b.length = 36) ∧
      samplesDecoded (client_data_tx_main w).trace = fs.map (decodeResponse w.host) ∧
      receiveResults (client_data_tx_main w).trace = List.replicate fs.length 36 ++ [-1] ∧
      ∃ pre, (client_data_tx_main w).trace
        = pre ++ [.recv (-1), .closeMain, .closeFT, .WSACleanup]) ∧
    ((∀ k ∈ w.keys, k ≠ some 27) →
      (clientDataTx_main w).exit = some 0 ∧
      framesWritten (clientDataTx_main w).trace
        = fs.map (fun f => encodeRelayFrame w.host (decodeResponse w.host f)) ∧
      (∀ b ∈ framesWritten (clientDataTx_main w).trace, b.length = 36) ∧
      samplesDecoded (clientDataTx_main w).trace = fs.map (decodeResponse w.host) ∧
      receiveResults (clientDataTx_main w).trace = List.replicate fs.length 36 ++ [-1] ∧
      ∃ pre, (clientDataTx_main w).trace = pre ++ [.recv (-1), .WSACleanup]) := by
  have hlen : ∀ b ∈ fs.map (fun f => encodeRelayFrame w.host (decodeResponse w.host f)),
      b.length = 36 := by
    intro b hb
    obtain ⟨f, hf, rfl⟩ := List.mem_map.1 hb
    rw [encodeRelayFrame_decodeResponse w.host f (hfs f hf)]
    exact hfs f hf
  constructor
  · intro hk
    obtain ⟨pre, hpre, h1, h2, h3⟩ :=
      client_data_tx_loop_frames w.host fs rest w.keys w.sends w.response0 hk hfs hbuf
    have hw : framesWritten (Event.sendFT (buildRequest w.host COMMAND NUM_SAMPLES)
        :: (pre ++ [Event.kbhit false, Event.recv (-1)])
          ++ [Event.closeMain, Event.closeFT, Event.WSACleanup])
        = fs.map (fun f => encodeRelayFrame w.host (decodeResponse w.host f)) := by
      rw [← h1]
      simp [framesWritten, List.filterMap_append]
    rw [← hrecvs] at hpre
    rw [client_data_tx_main_of_setupOk w hsetup, hpre]
    simp only [if_true]
    refine ⟨trivial, hw, ?_, ?_, ?_, ?_⟩
    · rw [hw]
      exact hlen
    · rw [← h3]
      simp [samplesDecoded, List.filterMap_append]
    · rw [← h2]
      simp [receiveResults, List.filterMap_append]
    · exact ⟨.sendFT (buildRequest w.host COMMAND NUM_SAMPLES) :: pre ++ [.kbhit false],
        by simp⟩
  · intro hk
    obtain ⟨pre, hpre, h1, h2, h3⟩ :=
      clientDataTx_loop_frames w.host fs rest w.keys w.sends w.response0 hk hfs hbuf
    have hw : framesWritten (Event.sendFT (buildRequest w.host COMMAND NUM_SAMPLES)
        :: (pre ++ [Event.recv (-1)]) ++ [Event.WSACleanup])
        = fs.map (fun f => encodeRelayFrame w.host (decodeResponse w.host f)) := by
      rw [← h1]
      simp [framesWritten, List.filterMap_append]
    rw [← hrecvs] at hpre
    rw [clientDataTx_main_of_setupOk w hsetup, hpre]
    simp only [if_true]
    refine ⟨trivial, hw, ?_, ?_, ?_, ?_⟩
    · rw [hw]
      exact hlen
    · rw [← h3]
      simp [samplesDecoded, List.filterMap_append]
    · rw [← h2]
      simp [receiveResults, List.filterMap_append]
    · exact ⟨.sendFT (buildRequest w.host COMMAND NUM_SAMPLES) :: pre, by simp⟩

theorem relay_forwards_frames_in_order_witness :
    ((client_data_tx_main twoFrameWorld).exit = some 0 ∧
      framesWritten (client_data_tx_main twoFrameWorld).trace
        = [frameA, frameB].map (fun f => encodeRelayFrame .little (decodeResponse .little f))) ∧
    ((clientDataTx_main twoFrameWorld).exit = some 0 ∧
      framesWritten (clientDataTx_main twoFrameWorld).trace
        = [frameA, frameB].map (fun f => encodeRelayFrame .little (decodeResponse .little f))) :=
  have h := relay_forwards_frames_in_order twoFrameWorld [frameA, frameB] [] (by decide)
    (by decide) (by decide) (by decide)
  ⟨⟨(h.1 (by decide)).1, (h.1 (by decide)).2.1⟩, ⟨(h.2 (by decide)).1, (h.2 (by decide)).2.1⟩⟩

/-- The C loop never looks at what `send` returned. -/
theorem client_data_tx_loop_ignores_sends (e : Endian) (recvs : List (Option (List Byte))) :
    ∀ (keys : List (Option Int)) (sends sends' : List Int) (response : List Byte),
      (client_data_tx_loop e recvs keys sends response).2
          = (client_data_tx_loop e recvs keys sends' response).2 ∧
        (client_data_tx_loop e recvs keys sends response).1.map Event.eraseRet
          = (client_data_tx_loop e recvs keys sends' response).1.map Event.eraseRet := by
  induction recvs with
  | nil =>
    intro keys sends sends' response
    cases hk : pendingKey keys <;> simp [client_data_tx_loop, hk]
  | cons r rs ih =>
    intro keys sends sends' response
    cases r with
    | none => cases hk : pendingKey keys <;> simp [client_data_tx_loop, hk]
    | some data =>
      cases hk : pendingKey keys with
      | some ch => simp [client_data_tx_loop, hk]
      | none =>
        have h := ih keys.tail sends.tail sends'.tail (recvInto response data)
        simp only [client_data_tx_loop, hk, List.map_cons, Event.eraseRet]
        exact ⟨h.1, by rw [h.2]⟩

/-- The C++ loop never looks at what `send` returned. -/
theorem clientDataTx_loop_ignores_sends (e : Endian) (recvs : List (Option (List Byte))) :
    ∀ (keys : List (Option Int)) (sends sends' : List Int) (response : List Byte),
      (clientDataTx_loop e recvs keys sends response).2
          = (clientDataTx_loop e recvs keys sends' response).2 ∧
        (clientDataTx_loop e recvs keys sends response).1.map Event.eraseRet
          = (clientDataTx_loop e recvs keys sends' response).1.map Event.eraseRet := by
  induction recvs with
  | nil =>
    intro keys sends sends' response
    by_cases hk : pendingKey keys = some 27 <;> simp [clientDataTx_loop, hk]
  | cons r rs ih =>
    intro keys sends sends' response
    cases r with
    | none => by_cases hk : pendingKey keys = some 27 <;> simp [clientDataTx_loop, hk]
    | some data =>
      by_cases hk : pendingKey keys = some 27
      · simp [clientDataTx_loop, hk]
      · have h := ih keys.tail sends.tail sends'.tail (recvInto response data)
        simp only [clientDataTx_loop, hk, if_false, List.map_append, List.map_cons,
          Event.eraseRet]
        exact ⟨h.1, by rw [h.2]⟩

/-- C6, as the code has it: the return value of the downstream `send` is
dropped.  Replacing the results of the downstream writes by any others (failed
or short writes included) changes neither the value `main` returns nor any call
it makes: the same key tests, receives, frames written and `closesocket` calls,
in the same order. -/
theorem send_result_is_ignored (w : World) (sends' : List Int) :
    (client_data_tx_main { w with sends := sends' }).exit = (client_data_tx_main w).exit ∧
      (client_data_tx_main { w with sends := sends' }).trace.map Event.eraseRet
        = (client_data_tx_main w).trace.map Event.eraseRet ∧
      (clientDataTx_main { w with sends := sends' }).exit = (clientDataTx_main w).exit ∧
      (clientDataTx_main { w with sends := sends' }).trace.map Event.eraseRet
        = (clientDataTx_main w).trace.map Event.eraseRet := by
  obtain ⟨host, startup, sockMain, sockFT, ptonMain, connMain, ptonFT, connFT, response0, keys,
    recvs, sends⟩ := w
  have hC := client_data_tx_loop_ignores_sends host recvs keys sends' sends response0
  have hP := clientDataTx_loop_ignores_sends host recvs keys sends' sends response0
  cases startup
  · exact ⟨rfl, rfl, rfl, rfl⟩
  cases sockMain
  · exact ⟨rfl, rfl, rfl, rfl⟩
  cases sockFT
  · exact ⟨rfl, rfl, rfl, rfl⟩
  cases ptonMain
  · exact ⟨rfl, rfl, rfl, rfl⟩
  cases connMain
  · exact ⟨rfl, rfl, rfl, rfl⟩
  cases ptonFT
  · exact ⟨rfl, rfl, rfl, rfl⟩
  cases connFT
  · exact ⟨rfl, rfl, rfl, rfl⟩
  simp only [client_data_tx_main, clientDataTx_main, Bool.not_true, Bool.false_eq_true, if_false,
    hC.1, hP.1]
  refine ⟨?_, ?_, ?_, ?_⟩
  · split_ifs <;> rfl
  · split_ifs <;> simp [Event.eraseRet, hC.2]
  · split_ifs <;> rfl
  · split_ifs <;> simp [Event.eraseRet, hP.2]

/-- C6 fails on the code: in `failedWriteWorld` the first downstream write
returns -1, and the C program goes on to test the keyboard, receive the second
frame and write it. -/
theorem failed_write_is_not_fatal :
    client_data_tx_main failedWriteWorld =
      ⟨[.sendFT [0x12, 0x34, 0, 2, 0, 0, 0, 0],
        .kbhit false, .recv 36, .print ⟨1, 2, 0, [-1, 256, 0, 0, 0, 0]⟩, .sendMain frameA (-1),
        .kbhit false, .recv 36,
        .print ⟨2, 3, 2147483648, [7, 0, 0, 0, 2147483647, -2147483648]⟩, .sendMain frameB (-1),
        .kbhit false, .recv (-1), .closeMain, .closeFT, .WSACleanup], some 0⟩ ∧
      writeResults (clientDataTx_main failedWriteWorld).trace = [-1, -1] ∧
      receiveResults (clientDataTx_main failedWriteWorld).trace = [36, 36, -1] := by
  decide

/-- C4, as the code has it.  A receive that returns -1 ends the loop with no
sample decoded, no frame written and no further receive.  A receive that
returns `k < 36` bytes is not an error for the code: unless cancellation is seen
at the key test, the decoder runs on the 36-byte buffer whose first `k` bytes are
the received ones and whose other bytes are what the buffer held before, that
buffer is written downstream as a frame, and the loop goes on. -/
theorem short_receive_is_forwarded (e : Endian) (data response : List Byte)
    (rest : List (Option (List Byte))) (keys : List (Option Int)) (sends : List Int)
    (hk : pendingKey keys = none) (hdata : data.length < 36) (hbuf : response.length = 36) :
    client_data_tx_loop e (none :: rest) keys sends response
        = ([.kbhit false, .recv (-1)], true) ∧
      clientDataTx_loop e (none :: rest) keys sends response
        = ([.kbhit false, .recv (-1)], true) ∧
      (data ++ response.drop data.length).length = 36 ∧
      client_data_tx_loop e (some data :: rest) keys sends response
        = (.kbhit false :: .recv data.length
            :: .print (decodeResponse e (data ++ response.drop data.length))
            :: .sendMain (data ++ response.drop data.length) (nextSend sends)
            :: (client_data_tx_loop e rest keys.tail sends.tail
                (data ++ response.drop data.length)).1,
          (client_data_tx_loop e rest keys.tail sends.tail
            (data ++ response.drop data.length)).2) ∧
      clientDataTx_loop e (some data :: rest) keys sends response
        = (.kbhit false :: .recv data.length
            :: .print (decodeResponse e (data ++ response.drop data.length))
            :: .sendMain (data ++ response.drop data.length) (nextSend sends)
            :: (clientDataTx_loop e rest keys.tail sends.tail
                (data ++ response.drop data.length)).1,
          (clientDataTx_loop e rest keys.tail sends.tail
            (data ++ response.drop data.length)).2) := by
  have hlen : (data ++ response.drop data.length).length = 36 := by
    rw [← recvInto_short response data (by omega)]
    exact recvInto_length response data hbuf
  have hr := recvInto_short response data (by omega)
  have hb := bytesReceived_short data (by omega)
  have hf := encodeRelayFrame_decodeResponse e _ hlen
  refine ⟨?_, ?_, hlen, ?_, ?_⟩
  · simp [client_data_tx_loop, hk]
  · simp [clientDataTx_loop, hk, pollEvents]
  · simp only [client_data_tx_loop, hk, hr, hb, hf]
  · simp only [clientDataTx_loop, hk, hr, hb, hf, pollEvents]
    simp

theorem short_receive_is_forwarded_witness :
    client_data_tx_loop .little [some [9, 9, 9, 9], none] [] [] frameA
      = (.kbhit false :: .recv 4
          :: .print (decodeResponse .little ([9, 9, 9, 9] ++ frameA.drop 4))
          :: .sendMain ([9, 9, 9, 9] ++ frameA.drop 4) 36
          :: (client_data_tx_loop .little [none] [] [] ([9, 9, 9, 9] ++ frameA.drop 4)).1,
        (client_data_tx_loop .little [none] [] [] ([9, 9, 9, 9] ++ frameA.drop 4)).2) :=
  (short_receive_is_forwarded .little [9, 9, 9, 9] frameA [none] [] [] rfl (by decide)
    (by decide)).2.2.2.1

/-- C4 fails on the code: in `shortReadWorld` the second receive returns 4
bytes; the C program decodes a sample from them and the 32 stale bytes of the
buffer, writes it downstream, and receives again. -/
theorem short_receive_is_not_rejected :
    client_data_tx_main shortReadWorld =
      ⟨[.sendFT [0x12, 0x34, 0, 2, 0, 0, 0, 0],
        .kbhit false, .recv 36, .print ⟨1, 2, 0, [-1, 256, 0, 0, 0, 0]⟩, .sendMain frameA 36,
        .kbhit false, .recv 4, .print ⟨151587081, 2, 0, [-1, 256, 0, 0, 0, 0]⟩,
        .sendMain ([9, 9, 9, 9] ++ frameA.drop 4) 36,
        .kbhit false, .recv (-1), .closeMain, .closeFT, .WSACleanup], some 0⟩ ∧
      framesWritten (clientDataTx_main shortReadWorld).trace
        = [frameA, [9, 9, 9, 9] ++ frameA.drop 4] ∧
      receiveResults (clientDataTx_main shortReadWorld).trace = [36, 4, -1] := by
  decide

/-! ## Closing the sockets -/

theorem client_data_tx_loop_closes_nothing (e : Endian) (recvs : List (Option (List Byte))) :
    ∀ (keys : List (Option Int)) (sends : List Int) (response : List Byte),
      closeCounts (client_data_tx_loop e recvs keys sends response).1 = (0, 0) := by
  induction recvs with
  | nil =>
    intro keys sends response
    cases hk : pendingKey keys <;> simp [client_data_tx_loop, hk, closeCounts]
  | cons r rs ih =>
    intro keys sends response
    cases r with
    | none => cases hk : pendingKey keys <;> simp [client_data_tx_loop, hk, closeCounts]
    | some data =>
      cases hk : pendingKey keys with
      | some ch => simp [client_data_tx_loop, hk, closeCounts]
      | none =>
        have h := ih keys.tail sends.tail (recvInto response data)
        simp only [closeCounts, Prod.mk.injEq] at h
        simp [client_data_tx_loop, hk, closeCounts, h.1, h.2]

/-- The C program, once set up, closes each socket exactly once whenever it
returns. -/
theorem client_data_tx_closes_each_socket_once (w : World) (hsetup : w.setupOk = true)
    (hret : (client_data_tx_main w).exit ≠ none) :
    closeCounts (client_data_tx_main w).trace = (1, 1) := by
  have h := client_data_tx_loop_closes_nothing w.host w.recvs w.keys w.sends w.response0
  simp only [closeCounts, Prod.mk.injEq] at h
  rw [client_data_tx_main_of_setupOk w hsetup] at hret ⊢
  split_ifs at hret ⊢ with hl
  · simp [closeCounts, List.count_append, h.1, h.2]
  · simp at hret

/-- C7 on the code: in `recvErrorWorld` (set-up succeeds, no key, the first
receive returns -1) the C++ program leaves the loop by the `break` after the
failed receive and returns 0 without a `closesocket` call on either socket; its
ESC branch (`escapeWorld`) and the C program close each socket once. -/
theorem clientDataTx_recv_error_closes_no_socket :
    clientDataTx_main recvErrorWorld =
      ⟨[.sendFT [0x12, 0x34, 0, 2, 0, 0, 0, 0], .kbhit false, .recv (-1), .WSACleanup], some 0⟩ ∧
      closeCounts (clientDataTx_main recvErrorWorld).trace = (0, 0) ∧
      closeCounts (clientDataTx_main escapeWorld).trace = (1, 1) ∧
      closeCounts (client_data_tx_main recvErrorWorld).trace = (1, 1) := by
  decide

/-! ## The key test -/

theorem client_data_tx_loop_shape (e : Endian) (recvs : List (Option (List Byte))) :
    ∀ (keys : List (Option Int)) (sends : List Int) (response : List Byte),
      loopShapeC (client_data_tx_loop e recvs keys sends response).1 = true := by
  induction recvs with
  | nil =>
    intro keys sends response
    cases hk : pendingKey keys <;> simp [client_data_tx_loop, hk, loopShapeC]
  | cons r rs ih =>
    intro keys sends response
    cases r with
    | none => cases hk : pendingKey keys <;> simp [client_data_tx_loop, hk, loopShapeC]
    | some data =>
      cases hk : pendingKey keys with
      | some ch => simp [client_data_tx_loop, hk, loopShapeC]
      | none =>
        simp [client_data_tx_loop, hk, loopShapeC, bytesReceived_nonneg, ih]

theorem clientDataTx_loop_shape (e : Endian) (recvs : List (Option (List Byte))) :
    ∀ (keys : List (Option Int)) (sends : List Int) (response : List Byte),
      loopShapeCpp (clientDataTx_loop e recvs keys sends response).1 = true := by
  induction recvs with
  | nil =>
    intro keys sends response
    cases hk : pendingKey keys with
    | none => simp [clientDataTx_loop, hk, pollEvents, loopShapeCpp]
    | some ch =>
      by_cases h27 : ch = 27 <;> simp [clientDataTx_loop, hk, pollEvents, loopShapeCpp, h27]
  | cons r rs ih =>
    intro keys sends response
    cases r with
    | none =>
      cases hk : pendingKey keys with
      | none => simp [clientDataTx_loop, hk, pollEvents, loopShapeCpp]
      | some ch =>
        by_cases h27 : ch = 27 <;> simp [clientDataTx_loop, hk, pollEvents, loopShapeCpp, h27]
    | some data =>
      cases hk : pendingKey keys with
      | none =>
        simp [clientDataTx_loop, hk, pollEvents, loopShapeCpp, bytesReceived_nonneg, ih]
      | some ch =>
        by_cases h27 : ch = 27 <;>
          simp [clientDataTx_loop, hk, pollEvents, loopShapeCpp, h27, bytesReceived_nonneg, ih]

/-- The C loop when a key is waiting at the key test after `fs.length` tests
that found none, the receives before it returning the full frames `fs`. -/
theorem client_data_tx_loop_cancel (e : Endian) (fs : List (List Byte))
    (rest : List (Option (List Byte))) (ch : Int) (later : List (Option Int)) :
    ∀ (ks : List (Option Int)) (sends : List Int) (response : List Byte),
      ks.length = fs.length → (∀ k ∈ ks, k = none) → (∀ f ∈ fs, f.length = 36) →
      response.length = 36 →
      ∃ pre, client_data_tx_loop e (fs.map some ++ rest) (ks ++ some ch :: later) sends response
          = (pre ++ [.kbhit true], true) ∧
        framesWritten pre = fs.map (fun f => encodeRelayFrame e (decodeResponse e f)) ∧
        receiveResults pre = List.replicate fs.length 36 := by
  induction fs with
  | nil =>
    intro ks sends response hlen _ _ _
    have hks : ks = [] := List.length_eq_zero.1 hlen
    subst hks
    refine ⟨[], ?_, rfl, rfl⟩
    rcases rest with _ | ⟨_ | d, rs⟩ <;> simp [client_data_tx_loop, pendingKey]
  | cons f fs ih =>
    intro ks sends response hlen hk hf hr
    cases ks with
    | nil => simp at hlen
    | cons k ks =>
      have hk0 : k = none := hk k (by simp)
      subst hk0
      have hf36 : f.length = 36 := hf f (by simp)
      obtain ⟨pre, hpre, h1, h2⟩ := ih ks sends.tail f (by simpa using hlen)
        (fun x hx => hk x (by simp [hx])) (fun g hg => hf g (by simp [hg])) hf36
      refine ⟨.kbhit false :: .recv 36 :: .print (decodeResponse e f)
        :: .sendMain (encodeRelayFrame e (decodeResponse e f)) (nextSend sends) :: pre,
        ?_, ?_, ?_⟩
      · have hb : bytesReceived f = 36 := by rw [bytesReceived_short f (by omega), hf36]; rfl
        simp only [List.map_cons, List.cons_append, client_data_tx_loop, pendingKey,
          List.tail_cons, recvInto_full response f hr hf36, hb, List.append_eq, hpre]
      · rw [List.map_cons, ← h1]
        rfl
      · rw [List.length_cons, List.replicate_succ, ← h2]
        rfl

/-- The C++ loop when ESC is waiting at the key test after `fs.length` tests
that found no ESC, the receives before it returning the full frames `fs`. -/
theorem clientDataTx_loop_cancel (e : Endian) (fs : List (List Byte))
    (rest : List (Option (List Byte))) (later : List (Option Int)) :
    ∀ (ks : List (Option Int)) (sends : List Int) (response : List Byte),
      ks.length = fs.length → (∀ k ∈ ks, k ≠ some 27) → (∀ f ∈ fs, f.length = 36) →
      response.length = 36 →
      ∃ pre, clientDataTx_loop e (fs.map some ++ rest) (ks ++ some 27 :: later) sends response
          = (pre ++ [.kbhit true, .getch 27, .closeMain, .closeFT], true) ∧
        framesWritten pre = fs.map (fun f => encodeRelayFrame e (decodeResponse e f)) ∧
        receiveResults pre = List.replicate fs.length 36 := by
  have hpoll : ∀ key : Option Int, framesWritten (pollEvents key) = [] ∧
      receiveResults (pollEvents key) = [] := by
    intro key
    cases key <;> simp [pollEvents, framesWritten, receiveResults]
  induction fs with
  | nil =>
    intro ks sends response hlen _ _ _
    have hks : ks = [] := List.length_eq_zero.1 hlen
    subst hks
    refine ⟨[], ?_, rfl, rfl⟩
    rcases rest with _ | ⟨_ | d, rs⟩ <;> simp [clientDataTx_loop, pendingKey, pollEvents]
  | cons f fs ih =>
    intro ks sends response hlen hk hf hr
    cases ks with
    | nil => simp at hlen
    | cons k ks =>
      have hk0 : k ≠ some 27 := hk k (by simp)
      have hf36 : f.length = 36 := hf f (by simp)
      obtain ⟨pre, hpre, h1, h2⟩ := ih ks sends.tail f (by simpa using hlen)
        (fun x hx => hk x (by simp [hx])) (fun g hg => hf g (by simp [hg])) hf36
      refine ⟨pollEvents k ++ .recv 36 :: .print (decodeResponse e f)
        :: .sendMain (encodeRelayFrame e (decodeResponse e f)) (nextSend sends) :: pre,
        ?_, ?_, ?_⟩
      · have hb : bytesReceived f = 36 := by rw [bytesReceived_short f (by omega), hf36]; rfl
        simp only [List.map_cons, List.cons_append, clientDataTx_loop, pendingKey, hk0,
          if_false, List.tail_cons, recvInto_full response f hr hf36, hb, List.append_eq, hpre,
          List.append_assoc]
      · rw [framesWritten, List.filterMap_append]
        have := (hpoll k).1
        rw [framesWritten] at this
        rw [this, List.nil_append, List.map_cons, ← h1]
        rfl
      · rw [receiveResults, List.filterMap_append]
        have := (hpoll k).2
        rw [receiveResults] at this
        rw [this, List.nil_append, List.length_cons, List.replicate_succ, ← h2]
        rfl

/-- C8 (cancellation is polled once per iteration, before the receive), for
both relay loops in every state.  Every loop trace is a sequence of iterations
that each start with exactly one key test (`loopShapeC`, `loopShapeCpp`).  When
the test observes cancellation (any waiting key in C; a waiting ESC in C++) the
loop is left at once, with no receive and no downstream write.  When it does
not, the receive of that iteration is made next, and when it returns data the
sample is printed and forwarded before the next iteration, which starts with its
own key test on the next state of the console; a receive that returns -1, or
never returns, ends the trace (the fatal exit of the receive, not a
cancellation).  At program level: when cancellation is first observed at the key
test after `fs.length` iterations that received the full frames `fs`, `main`
returns 0 having made exactly `fs.length` receives and `fs.length` writes, and
nothing but `closesocket`/`WSACleanup` follows the observing key test. -/
theorem cancellation_is_polled_once_per_iteration (e : Endian)
    (recvs : List (Option (List Byte))) (keys : List (Option Int)) (sends : List Int)
    (response : List Byte) :
    (loopShapeC (client_data_tx_loop e recvs keys sends response).1 = true ∧
      loopShapeCpp (clientDataTx_loop e recvs keys sends response).1 = true) ∧
    ((pendingKey keys).isSome = true →
      client_data_tx_loop e recvs keys sends response = ([.kbhit true], true)) ∧
    (pendingKey keys = some 27 →
      clientDataTx_loop e recvs keys sends response
        = ([.kbhit true, .getch 27, .closeMain, .closeFT], true)) ∧
    (pendingKey keys = none →
      (recvs = [] →
        client_data_tx_loop e recvs keys sends response = ([.kbhit false, .recvBlocks], false)) ∧
      (∀ rest, recvs = none :: rest →
        client_data_tx_loop e recvs keys sends response = ([.kbhit false, .recv (-1)], true)) ∧
      (∀ data rest, recvs = some data :: rest →
        client_data_tx_loop e recvs keys sends response
          = (.kbhit false :: .recv (bytesReceived data)
              :: .print (decodeResponse e (recvInto response data))
              :: .sendMain (encodeRelayFrame e (decodeResponse e (recvInto response data)))
                  (nextSend sends)
              :: (client_data_tx_loop e rest keys.tail sends.tail
                  (recvInto response data)).1,
            (client_data_tx_loop e rest keys.tail sends.tail (recvInto response data)).2))) ∧
    (pendingKey keys ≠ some 27 →
      (recvs = [] →
        clientDataTx_loop e recvs keys sends response
          = (pollEvents (pendingKey keys) ++ [.recvBlocks], false)) ∧
      (∀ rest, recvs = none :: rest →
        clientDataTx_loop e recvs keys sends response
          = (pollEvents (pendingKey keys) ++ [.recv (-1)], true)) ∧
      (∀ data rest, recvs = some data :: rest →
        clientDataTx_loop e recvs keys sends response
          = (pollEvents (pendingKey keys) ++ .recv (bytesReceived data)
              :: .print (decodeResponse e (recvInto response data))
              :: .sendMain (encodeRelayFrame e (decodeResponse e (recvInto response data)))
                  (nextSend sends)
              :: (clientDataTx_loop e rest keys.tail sends.tail (recvInto response data)).1,
            (clientDataTx_loop e rest keys.tail sends.tail (recvInto response data)).2))) ∧
    (∀ (w : World) (fs : List (List Byte)) (rest : List (Option (List Byte)))
        (ks later : List (Option Int)) (ch : Int),
      w.setupOk = true → w.response0.length = 36 → (∀ f ∈ fs, f.length = 36) →
      w.recvs = fs.map some ++ rest → w.keys = ks ++ some ch :: later →
      ks.length = fs.length → (∀ k ∈ ks, k = none) →
      (client_data_tx_main w).exit = some 0 ∧
        framesWritten (client_data_tx_main w).trace
          = fs.map (fun f => encodeRelayFrame w.host (decodeResponse w.host f)) ∧
        receiveResults (client_data_tx_main w).trace = List.replicate fs.length 36 ∧
        ∃ pre, (client_data_tx_main w).trace
          = pre ++ [.kbhit true, .closeMain, .closeFT, .WSACleanup]) ∧
    (∀ (w : World) (fs : List (List Byte)) (rest : List (Option (List Byte)))
        (ks later : List (Option Int)),
      w.setupOk = true → w.response0.length = 36 → (∀ f ∈ fs, f.length = 36) →
      w.recvs = fs.map some ++ rest → w.keys = ks ++ some 27 :: later →
      ks.length = fs.length → (∀ k ∈ ks, k ≠ some 27) →
      (clientDataTx_main w).exit = some 0 ∧
        framesWritten (clientDataTx_main w).trace
          = fs.map (fun f => encodeRelayFrame w.host (decodeResponse w.host f)) ∧
        receiveResults (clientDataTx_main w).trace = List.replicate fs.length 36 ∧
        ∃ pre, (clientDataTx_main w).trace
          = pre ++ [.kbhit true, .getch 27, .closeMain, .closeFT, .WSACleanup]) := by
  refine ⟨⟨client_data_tx_loop_shape e recvs keys sends response,
    clientDataTx_loop_shape e recvs keys sends response⟩, ?_, ?_, ?_, ?_, ?_, ?_⟩
  · intro hk
    obtain ⟨ch, hch⟩ := Option.isSome_iff_exists.1 hk
    rcases recvs with _ | ⟨_ | data, rs⟩ <;> simp [client_data_tx_loop, hch]
  · intro hk
    rcases recvs with _ | ⟨_ | data, rs⟩ <;> simp [clientDataTx_loop, hk, pollEvents]
  · intro hk
    refine ⟨?_, ?_, ?_⟩
    · intro hr
      subst hr
      simp [client_data_tx_loop, hk]
    · intro rest hr
      subst hr
      simp [client_data_tx_loop, hk]
    · intro data rest hr
      subst hr
      simp only [client_data_tx_loop, hk]
  · intro hk
    refine ⟨?_, ?_, ?_⟩
    · intro hr
      subst hr
      simp [clientDataTx_loop, hk]
    · intro rest hr
      subst hr
      simp [clientDataTx_loop, hk]
    · intro data rest hr
      subst hr
      simp only [clientDataTx_loop, hk, if_false]
  · intro w fs rest ks later ch hsetup hbuf hfs hrecvs hkeys hlen hk
    obtain ⟨pre, hpre, h1, h2⟩ :=
      client_data_tx_loop_cancel w.host fs rest ch later ks w.sends w.response0 hlen hk hfs hbuf
    rw [← hrecvs, ← hkeys] at hpre
    rw [client_data_tx_main_of_setupOk w hsetup, hpre]
    simp only [if_true]
    refine ⟨trivial, ?_, ?_, ?_⟩
    · rw [← h1]
      simp [framesWritten, List.filterMap_append]
    · rw [← h2]
      simp [receiveResults, List.filterMap_append]
    · exact ⟨.sendFT (buildRequest w.host COMMAND NUM_SAMPLES) :: pre, by simp⟩
  · intro w fs rest ks later hsetup hbuf hfs hrecvs hkeys hlen hk
    obtain ⟨pre, hpre, h1, h2⟩ :=
      clientDataTx_loop_cancel w.host fs rest later ks w.sends w.response0 hlen hk hfs hbuf
    rw [← hrecvs, ← hkeys] at hpre
    rw [clientDataTx_main_of_setupOk w hsetup, hpre]
    simp only [if_true]
    refine ⟨trivial, ?_, ?_, ?_⟩
    · rw [← h1]
      simp [framesWritten, List.filterMap_append]
    · rw [← h2]
      simp [receiveResults, List.filterMap_append]
    · exact ⟨.sendFT (buildRequest w.host COMMAND NUM_SAMPLES) :: pre, by simp⟩

theorem cancellation_is_polled_once_per_iteration_witness :
    (client_data_tx_loop .little [some frameB, none] [some 27] [] frameA = ([.kbhit true], true) ∧
      clientDataTx_loop .little [some frameB, none] [some 27] [] frameA
        = ([.kbhit true, .getch 27, .closeMain, .closeFT], true)) ∧
    (client_data_tx_loop .little [some frameB, none] [none, some 27] [] frameA
        = (.kbhit false :: .recv (bytesReceived frameB)
            :: .print (decodeResponse .little (recvInto frameA frameB))
            :: .sendMain (encodeRelayFrame .little (decodeResponse .little
                (recvInto frameA frameB))) (nextSend [])
            :: (client_data_tx_loop .little [none] [some 27] [] (recvInto frameA frameB)).1,
          (client_data_tx_loop .little [none] [some 27] [] (recvInto frameA frameB)).2)) ∧
    ((client_data_tx_main escapeWorld).exit = some 0 ∧
      receiveResults (client_data_tx_main escapeWorld).trace = List.replicate 1 36) ∧
    ((clientDataTx_main escapeWorld).exit = some 0 ∧
      receiveResults (clientDataTx_main escapeWorld).trace = List.replicate 1 36) :=
  have h := cancellation_is_polled_once_per_iteration .little [some frameB, none] [some 27] []
    frameA
  have h' := cancellation_is_polled_once_per_iteration .little [some frameB, none]
    [none, some 27] [] frameA
  have hC := h.2.2.2.2.2.1 escapeWorld [frameA] [some frameB, none] [none] [] 27 (by decide)
    (by decide) (by decide) (by decide) (by decide) (by decide) (by decide)
  have hP := h.2.2.2.2.2.2 escapeWorld [frameA] [some frameB, none] [none] [] (by decide)
    (by decide) (by decide) (by decide) (by decide) (by decide) (by decide)
  ⟨⟨h.2.1 rfl, h.2.2.1 rfl⟩, (h'.2.2.2.1 rfl).2.2 frameB [none] rfl, ⟨hC.1, hC.2.2.1⟩,
    ⟨hP.1, hP.2.2.1⟩⟩

/-! ## Set-up failures -/

/-- The address constant of `read_data_single.c` is in dotted-decimal
notation, so its `inet_pton` calls cannot fail. -/
theorem ip_address_parses : inet_pton ip_address = true := by decide

/-- C9 (set-up failure): in the two relay programs, a failure of socket
creation, address parsing or `connect`, for the downstream socket or for the
device socket, makes `main` return 1 with no start request sent, no receive and
no downstream write.  In `read_data_single.c`, a failure of socket creation, of
the parsing of its address constant or of `connect` makes `main` return -1 with
no start request sent and no receive; there the parsing of the constant cannot
fail, and the other two failures are tested by the code. -/
theorem setup_failure_stops_before_streaming (w : World) :
    ((w.socketMain = false ∨ w.socketFT = false ∨ w.inet_ptonMain = false ∨
        w.connectMain = false ∨ w.inet_ptonFT = false ∨ w.connectFT = false) →
      ((client_data_tx_main w).exit = some 1 ∧
        ∀ ev ∈ (client_data_tx_main w).trace, ev.isSend = false ∧ ev.isRecv = false) ∧
      ((clientDataTx_main w).exit = some 1 ∧
        ∀ ev ∈ (clientDataTx_main w).trace, ev.isSend = false ∧ ev.isRecv = false)) ∧
    ((w.socketFT = false ∨ inet_pton ip_address = false ∨ w.connectFT = false) →
      (read_data_single_main w).exit = some (-1) ∧
        ∀ ev ∈ (read_data_single_main w).trace, ev.isSend = false ∧ ev.isRecv = false) := by
  obtain ⟨host, startup, sockMain, sockFT, ptonMain, connMain, ptonFT, connFT, response0, keys,
    recvs, sends⟩ := w
  constructor
  · intro h
    cases startup <;> cases sockMain <;> cases sockFT <;> cases ptonMain <;> cases connMain <;>
      cases ptonFT <;> cases connFT <;>
      first
        | (simp [client_data_tx_main, clientDataTx_main, Event.isSend, Event.isRecv]; done)
        | simp at h
  · intro h
    have h' : sockFT = false ∨ connFT = false := by
      rcases h with h | h | h
      · exact Or.inl h
      · rw [ip_address_parses] at h
        exact absurd h (by decide)
      · exact Or.inr h
    cases startup <;> cases sockFT <;> cases connFT <;>
      first
        | (simp [read_data_single_main, Event.isSend, Event.isRecv]; done)
        | simp at h'

theorem setup_failure_stops_before_streaming_witness :
    ((client_data_tx_main noDeviceWorld).exit = some 1 ∧
        (clientDataTx_main noDeviceWorld).exit = some 1) ∧
      (read_data_single_main noDeviceWorld).exit = some (-1) :=
  have h := setup_failure_stops_before_streaming noDeviceWorld
  ⟨⟨(h.1 (by decide)).1.1, (h.1 (by decide)).2.1⟩, (h.2 (Or.inr (Or.inr rfl))).1⟩

end NetFT
